import Mathlib

/-!
Shallow embedding of the Pounder RF front-end driver
(`src/hardware/pounder/mod.rs` of the stabilizer repository) and proofs of the
specified properties: the channel/pin addressing model, the QSPI protocol
encoder for the DDS chip, the attenuator shift-register protocol, the power
measurement formula, and the `update_dds` orchestration.

Machine floats (`f32`) are modelled by exact rationals `ℚ`; every float
operation a settled claim depends on stays inside a range where `f32`
arithmetic is exact (half-dB attenuation steps, small integer codes), or the
claim itself states the formula with decimal literals. Machine integers are
`ℕ` with explicit `% 2 ^ w` where wrapping matters.  Bus transactions are
recorded as explicit event lists so that "no transaction is issued" is a
statable property; the buses themselves are modelled as reliable (bus errors
are surfaced, never retried, and are orthogonal to every claim below).
-/

namespace Pounder

/-- GPIO pins of the Pounder I2C GPIO expander (`GpioPin` in
`src/hardware/pounder/mod.rs`). -/
inductive GpioPin
  | Led4Green | Led5Red | Led6Green | Led7Red | Led8Green | Led9Red
  | DetPwrdown0 | DetPwrdown1
  | AttLe0 | AttLe1 | AttLe2 | AttLe3
  | DdsReset | AttRstN | OscEnN | ExtClkSel
deriving DecidableEq, Fintype

/-- Pin names of the MCP23017 expander variant (`mcp230xx::Mcp23017`). -/
inductive Mcp23017
  | A0 | A1 | A2 | A3 | A4 | A5 | A6 | A7
  | B0 | B1 | B2 | B3 | B4 | B5 | B6 | B7
deriving DecidableEq, Fintype

/-- Pin names of the TCA/PCA9539 expander variant (`tca9539::Pin`). -/
inductive Tca9539Pin
  | P00 | P01 | P02 | P03 | P04 | P05 | P06 | P07
  | P10 | P11 | P12 | P13 | P14 | P15 | P16 | P17
deriving DecidableEq, Fintype

/-- Translation of `impl From<GpioPin> for mcp230xx::Mcp23017`. -/
def GpioPin.toMcp23017 : GpioPin → Mcp23017
  | .Led4Green => .A0
  | .Led5Red => .A1
  | .Led6Green => .A2
  | .Led7Red => .A3
  | .Led8Green => .A4
  | .Led9Red => .A5
  | .DetPwrdown0 => .A6
  | .DetPwrdown1 => .A7
  | .AttLe0 => .B0
  | .AttLe1 => .B1
  | .AttLe2 => .B2
  | .AttLe3 => .B3
  | .DdsReset => .B4
  | .AttRstN => .B5
  | .OscEnN => .B6
  | .ExtClkSel => .B7

/-- Translation of `impl From<GpioPin> for tca9539::Pin`. -/
def GpioPin.toTca9539 : GpioPin → Tca9539Pin
  | .Led4Green => .P00
  | .Led5Red => .P01
  | .Led6Green => .P02
  | .Led7Red => .P03
  | .Led8Green => .P04
  | .Led9Red => .P05
  | .DetPwrdown0 => .P06
  | .DetPwrdown1 => .P07
  | .AttLe0 => .P10
  | .AttLe1 => .P11
  | .AttLe2 => .P12
  | .AttLe3 => .P13
  | .DdsReset => .P14
  | .AttRstN => .P15
  | .OscEnN => .P16
  | .ExtClkSel => .P17

/-- Pounder `Channel`; the discriminant is both the index into the 4-byte
attenuator shift register and the latch-enable signal index. -/
inductive Channel
  | In0 | Out0 | In1 | Out1
deriving DecidableEq, Fintype

/-- Discriminant of `Channel` (Rust `channel as usize`). -/
def Channel.index : Channel → Fin 4
  | .In0 => 0
  | .Out0 => 1
  | .In1 => 2
  | .Out1 => 3

/-- Translation of `impl From<Channel> for GpioPin` (attenuator latch
selection). -/
def Channel.toGpioPin : Channel → GpioPin
  | .In0 => .AttLe0
  | .Out0 => .AttLe1
  | .In1 => .AttLe2
  | .Out1 => .AttLe3

/-- Latch pin expected for each shift-register index, used to state that the
latch pin pulsed for a channel carries the channel's own numeric index. -/
def attLatchPin : Fin 4 → GpioPin :=
  ![GpioPin.AttLe0, GpioPin.AttLe1, GpioPin.AttLe2, GpioPin.AttLe3]

/-- Underlying QSPI driver error (`hal::xspi::QspiError`), abstract here. -/
inductive QspiError
  | busy
deriving DecidableEq

/-- Pounder `Error`. -/
inductive Error
  | Spi | I2c | Qspi (e : QspiError) | Bounds | InvalidAddress
  | InvalidChannel | Adc | InvalidState
deriving DecidableEq

/-- Modelled from the spec: the serial operating modes of the AD9959 interface
(`ad9959::Mode`, from the repository's `ad9959` support crate, which is not
under src/). The spec describes the narrow-compatibility (single-bit-two-wire)
and native four-bit modes; the write implementation matches on
`SingleBitTwoWire`, `FourBitSerial` and a wildcard, so the remaining AD9959
serial modes are also listed. -/
inductive Mode
  | SingleBitTwoWire | SingleBitThreeWire | TwoBitSerial | FourBitSerial
deriving DecidableEq

/-- State of `QspiInterface`: the encoder's current operating mode and whether
the streaming sub-mode has been entered. -/
structure QspiState where
  mode : Mode
  streaming : Bool
deriving DecidableEq

/-- Bus transaction issued to the QSPI peripheral. -/
inductive BusOp
  | write (addr : ℕ) (data : List ℕ)
  | read (addr : ℕ)
deriving DecidableEq

/-- Loop body shared by the two encoding loops of `QspiInterface::write` in
`SingleBitTwoWire` mode: bit `bit` of the raw byte `x` is placed at bit offset
0 (even `bit`) or 4 (odd `bit`) of encoded byte `base + (3 - bit / 2)`.  The
12-byte `encoded_data` buffer is modelled as an index-to-byte function. -/
def encStep (x base : ℕ) (acc : ℕ → ℕ) (bit : ℕ) : ℕ → ℕ :=
  let offset : ℕ := if bit % 2 ≠ 0 then 4 else 0
  let byte_position := 3 - bit / 2
  if x &&& (1 <<< bit) ≠ 0 then
    Function.update acc (base + byte_position)
      (acc (base + byte_position) ||| 1 <<< offset)
  else acc

/-- One encoding loop of `QspiInterface::write` (`for address_bit in 0..8` and
the inner `for bit in 0..8`): encode the 8 bits of `x` into the four encoded
bytes starting at `base`. -/
def encodeBits (x base : ℕ) (enc : ℕ → ℕ) : ℕ → ℕ :=
  (List.range 8).foldl (encStep x base) enc

/-- The full `encoded_data` buffer built by `QspiInterface::write` in
`SingleBitTwoWire` mode: the address is encoded into the first 4 bytes and
data byte `byte_index` into the 4 bytes starting at `(byte_index + 1) * 4`. -/
def encode_single_bit_two_wire (addr : ℕ) (data : List ℕ) : ℕ → ℕ :=
  (List.range data.length).foldl
    (fun acc byte_index =>
      encodeBits (data.getD byte_index 0) ((byte_index + 1) * 4) acc)
    (encodeBits addr 0 (fun _ => 0))

/-- Translation of `QspiInterface::write` (`ad9959::Interface for
QspiInterface`).  The returned list is the bus transaction issued; an error
issues none.  In `SingleBitTwoWire` mode the 12-byte `encoded_data` buffer
rejects payloads with `data.len() * 4 > encoded_data.len() - 4`, and the
transaction sends `encoded_data[0]` as the address and
`encoded_data[1..(1 + data.len()) * 4]` as the payload. -/
def QspiInterface.write (s : QspiState) (addr : ℕ) (data : List ℕ) :
    Except Error (List BusOp) :=
  match s.mode with
  | Mode.SingleBitTwoWire =>
    if data.length * 4 > 12 - 4 then Except.error Error.Bounds
    else
      let encoded_data := encode_single_bit_two_wire addr data
      let end_index := (1 + data.length) * 4
      Except.ok
        [BusOp.write (encoded_data 0)
          (((List.range end_index).drop 1).map encoded_data)]
  | Mode.FourBitSerial =>
    if s.streaming then Except.error Error.InvalidState
    else Except.ok [BusOp.write addr data]
  | _ => Except.error Error.InvalidState

/-- Translation of `QspiInterface::read`: only valid in `FourBitSerial` mode;
the transmitted address is the register address with the high bit set
(`0x80 | addr`).  The destination buffer is filled by the bus and carries no
information here. -/
def QspiInterface.read (s : QspiState) (addr : ℕ) :
    Except Error (List BusOp) :=
  if s.mode ≠ Mode.FourBitSerial then Except.error Error.InvalidState
  else Except.ok [BusOp.read (0x80 ||| addr)]

/-- Translation of `QspiInterface::start_stream`: fails if the peripheral is
busy, otherwise reconfigures the bus registers for an infinite data-only
transaction (out of model) and sets the `streaming` flag. -/
def QspiInterface.start_stream (s : QspiState) (busy : Bool) :
    Except Error QspiState :=
  if busy then Except.error (Error.Qspi QspiError.busy)
  else Except.ok { s with streaming := true }

/-- Modelled from the spec: state of the four daisy-chained digital
attenuators sharing one 4-byte shift register — the staging shift register and
the latched output bytes, one byte per `Channel` index. -/
structure AttState where
  staging : Fin 4 → ℕ
  output : Fin 4 → ℕ

/-- Bus events of the attenuator protocol, recorded so that "no SPI transfer
or latch pulse occurs" is statable. -/
inductive AttEvent
  | spiTransfer | latchLow | latchHigh
deriving DecidableEq

/-- Modelled from the spec: the semantics of one full-duplex 4-byte SPI
transfer against the attenuator daisy chain
(`PounderDevices::transfer_attenuators`): the buffer is shifted into the
staging register while the latched output values are shifted out into the
buffer. -/
def transfer_attenuators (s : AttState) (channels : Fin 4 → ℕ) :
    AttState × (Fin 4 → ℕ) :=
  ({ staging := channels, output := s.output }, s.output)

/-- Modelled from the spec: pulsing a channel's latch pin low then high
(`PounderDevices::latch_attenuator`, rising-edge sensitive) commits that
channel's staging byte into its latched output. -/
def latch_attenuator (s : AttState) (channel : Channel) : AttState :=
  { s with
    output :=
      Function.update s.output channel.index (s.staging channel.index) }

/-- Modelled from the spec: `crate::convert::att_is_valid` is not under src/;
the spec states that requested attenuations outside [0, 31.5] dB are rejected
with a bounds error. -/
def att_is_valid (attenuation : ℚ) : Bool :=
  decide (0 ≤ attenuation) && decide (attenuation ≤ 31.5)

/-- Rust `as u8` cast of an `f32` value (saturating, truncating toward zero),
taken on the exact rational value. -/
def f32_as_u8 (x : ℚ) : ℕ :=
  if x < 0 then 0 else if 255 < x then 255 else (⌊x⌋).toNat

/-- Translation of `PounderDevices::set_attenuation`: reject out-of-bounds
requests, compute the half-dB code, read all four channels, overwrite the
target channel's byte with `!(code << 2)` (u8 arithmetic), write all four
back, latch the channel, and return the attenuation actually programmed. -/
def set_attenuation (s : AttState) (channel : Channel) (attenuation : ℚ) :
    List AttEvent × Except Error (AttState × ℚ) :=
  if !att_is_valid attenuation then ([], Except.error Error.Bounds)
  else
    let attenuation_code := f32_as_u8 (attenuation * 2)
    let channels0 : Fin 4 → ℕ := fun _ => 0
    let t1 := transfer_attenuators s channels0
    let channels2 :=
      Function.update t1.2 channel.index
        (255 - (attenuation_code <<< 2) % 256)
    let t2 := transfer_attenuators t1.1 channels2
    let s3 := latch_attenuator t2.1 channel
    ([AttEvent.spiTransfer, AttEvent.spiTransfer, AttEvent.latchLow,
      AttEvent.latchHigh],
      Except.ok (s3, (attenuation_code : ℚ) / 2))

/-- Translation of `PounderDevices::get_attenuation`: two consecutive
transfers with the same buffer, then decode `(!byte) >> 2` of the requested
channel into dB. -/
def get_attenuation (s : AttState) (channel : Channel) :
    List AttEvent × (AttState × ℚ) :=
  let channels0 : Fin 4 → ℕ := fun _ => 0
  let t1 := transfer_attenuators s channels0
  let t2 := transfer_attenuators t1.1 t1.2
  let attenuation_code := (255 - t2.2 channel.index % 256) >>> 2
  ([AttEvent.spiTransfer, AttEvent.spiTransfer],
    (t2.1, (attenuation_code : ℚ) / 2))

/-- Translation of `PounderDevices::sample_converter`: only the input
channels have power-detector ADCs; a normalized [0,1] reading is scaled by the
2.048 V external reference.  The two normalized readings are passed in as
`pwr0`/`pwr1` (the ADCs are outside the model). -/
def sample_converter (pwr0 pwr1 : ℚ) (channel : Channel) :
    Except Error ℚ :=
  match channel with
  | Channel.In0 => Except.ok (pwr0 * 2.048)
  | Channel.In1 => Except.ok (pwr1 * 2.048)
  | _ => Except.error Error.InvalidChannel

/-- Translation of `PounderDevices::measure_power`: the AD8363 log detector
gives 51.7 mV/dB with a −58 dBm intercept, behind a 20 dB tap. -/
def measure_power (pwr0 pwr1 : ℚ) (channel : Channel) :
    Except Error ℚ :=
  (sample_converter pwr0 pwr1 channel).map
    (fun analog_measurement =>
      analog_measurement * (1 / 0.0517) + (-58 + 20))

/-- Pounder `DdsChannelConfig` (engineering units; `f32` as exact `ℚ`). -/
structure DdsChannelConfig where
  frequency : ℚ
  phase_offset : ℚ
  amplitude : ℚ
deriving DecidableEq

/-- Pounder `ChannelConfig`: DDS settings plus an attenuation in dB. -/
structure ChannelConfig where
  dds : DdsChannelConfig
  attenuation : ℚ
deriving DecidableEq

/-- Pounder `ClockConfig` (equality-comparable, used to detect when the clock
must be reprogrammed). -/
structure ClockConfig where
  multiplier : ℕ
  reference_clock : ℚ
  external_clock : Bool
deriving DecidableEq

/-- Pounder `PounderConfig`: the clock plus two input and two output channel
configurations. -/
structure PounderConfig where
  clock : ClockConfig
  in_channel : Fin 2 → ChannelConfig
  out_channel : Fin 2 → ChannelConfig

/-- Errors of the repository's `ad9959` support crate (not under src/),
abstracted to the conversion that failed. -/
inductive Ad9959Error
  | clockingOutOfRange | frequencyOutOfRange | amplitudeOutOfRange
deriving DecidableEq

/-- Pounder `Profile`: the DDS register words in machine units. -/
structure Profile where
  frequency_tuning_word : ℕ
  phase_offset : ℕ
  amplitude_control : ℕ
deriving DecidableEq

/-- Modelled from the spec: `ad9959::frequency_to_ftw` is not under src/.
The frequency-tuning word is the 32-bit fixed-point ratio of the requested
frequency to the system clock frequency, and the conversion fails when the
frequency is outside the representable range (negative or beyond the Nyquist
limit implied by the system clock). -/
def frequency_to_ftw (frequency system_clock_frequency : ℚ) :
    Except Ad9959Error ℕ :=
  if 0 ≤ frequency ∧ frequency ≤ system_clock_frequency / 2 then
    Except.ok (⌊frequency / system_clock_frequency * 2 ^ 32⌋.toNat % 2 ^ 32)
  else Except.error Ad9959Error.frequencyOutOfRange

/-- Modelled from the spec: `ad9959::phase_to_pow` is not under src/.  The
phase offset in degrees is reduced to a 14-bit fraction of a turn. -/
def phase_to_pow (phase_degrees : ℚ) : Except Ad9959Error ℕ :=
  Except.ok (⌊phase_degrees / 360 * 2 ^ 14⌋.toNat % 2 ^ 14)

/-- Modelled from the spec: `ad9959::amplitude_to_acr` is not under src/.
The amplitude is a 0.0–1.0 fraction scaled to the 10-bit amplitude-control
field; values outside the representable range fail. -/
def amplitude_to_acr (amplitude : ℚ) : Except Ad9959Error ℕ :=
  if 0 ≤ amplitude ∧ amplitude ≤ 1 then
    Except.ok ⌊amplitude * 1023⌋.toNat
  else Except.error Ad9959Error.amplitudeOutOfRange

/-- Modelled from the spec: `ad9959::validate_clocking` is not under src/.
The reference frequency and multiplier are validated against the chip's
constraints and the resulting system clock frequency is returned; we model
the constraint as a positive system clock frequency within the AD9959's
500 MHz system-clock limit. -/
def validate_clocking (reference_clock : ℚ) (multiplier : ℕ) :
    Except Ad9959Error ℚ :=
  let frequency := reference_clock * multiplier
  if 0 < frequency ∧ frequency ≤ 500000000 then Except.ok frequency
  else Except.error Ad9959Error.clockingOutOfRange

/-- Translation of `impl TryFrom<(ClockConfig, ChannelConfig)> for Profile`:
the system clock frequency is `reference_clock × multiplier`, and the three
register-word conversions each abort the profile computation on failure. -/
def Profile.tryFrom (clocking : ClockConfig) (channel : ChannelConfig) :
    Except Ad9959Error Profile :=
  let system_clock_frequency := clocking.reference_clock * clocking.multiplier
  do
    let ftw ← frequency_to_ftw channel.dds.frequency system_clock_frequency
    let pow ← phase_to_pow channel.dds.phase_offset
    let acr ← amplitude_to_acr channel.dds.amplitude
    pure ⟨ftw, pow, acr⟩

/-- Hardware side effects applied by `update_dds`, in order. -/
inductive UpdateEvent
  | setExtClk (enabled : Bool)
  | ddsWrite (channel : Channel) (profile : Profile)
  | setAttenuation (channel : Channel) (attenuation : ℚ)
deriving DecidableEq

/-- Errors logged (not propagated) by `update_dds`. -/
inductive LogEntry
  | clockingError (e : Ad9959Error)
  | profileError (e : Ad9959Error)
  | attenuationError (e : Error)
deriving DecidableEq

/-- The channel-configuration/channel pairing iterated by `update_dds`
(`in_channel.iter().chain(out_channel.iter())` zipped with
`[In0, In1, Out0, Out1]`). -/
def dds_channels (settings : PounderConfig) :
    List (ChannelConfig × Channel) :=
  [(settings.in_channel 0, Channel.In0), (settings.in_channel 1, Channel.In1),
    (settings.out_channel 0, Channel.Out0),
    (settings.out_channel 1, Channel.Out1)]

/-- The same pairing as `dds_channels`, indexed by position. -/
def dds_channel_at (settings : PounderConfig) :
    Fin 4 → ChannelConfig × Channel
  | ⟨0, _⟩ => (settings.in_channel 0, Channel.In0)
  | ⟨1, _⟩ => (settings.in_channel 1, Channel.In1)
  | ⟨2, _⟩ => (settings.out_channel 0, Channel.Out0)
  | ⟨3, _⟩ => (settings.out_channel 1, Channel.Out1)
  | ⟨n + 4, h⟩ => absurd h (by omega)

/-- Per-channel body of the `update_dds` loop: compute the profile; on
success write it to the DDS and apply the attenuation (logging an attenuation
failure); on failure log the profile error and continue. -/
def update_dds_step (clocking : ClockConfig)
    (st : AttState × List UpdateEvent × List LogEntry)
    (p : ChannelConfig × Channel) :
    AttState × List UpdateEvent × List LogEntry :=
  match Profile.tryFrom clocking p.1 with
  | Except.ok dds_profile =>
    let evs := st.2.1 ++ [UpdateEvent.ddsWrite p.2 dds_profile]
    match (set_attenuation st.1 p.2 p.1.attenuation).2 with
    | Except.ok r =>
      (r.1, evs ++ [UpdateEvent.setAttenuation p.2 r.2], st.2.2)
    | Except.error err =>
      (st.1, evs, st.2.2 ++ [LogEntry.attenuationError err])
  | Except.error err =>
    (st.1, st.2.1, st.2.2 ++ [LogEntry.profileError err])

/-- Translation of `setup::Pounder::update_dds`.  Returns the attenuator
state, the clock configuration now considered current, the hardware events
applied, and the logged (suppressed) errors; the function itself never
fails. -/
def update_dds (att : AttState) (settings : PounderConfig)
    (clocking : ClockConfig) :
    AttState × ClockConfig × List UpdateEvent × List LogEntry :=
  let c :=
    if clocking ≠ settings.clock then
      match validate_clocking settings.clock.reference_clock
          settings.clock.multiplier with
      | Except.ok _frequency =>
        (settings.clock,
          [UpdateEvent.setExtClk settings.clock.external_clock],
          ([] : List LogEntry))
      | Except.error err => (clocking, [], [LogEntry.clockingError err])
    else (clocking, [], [])
  let r := (dds_channels settings).foldl (update_dds_step c.1) (att, c.2.1, c.2.2)
  (r.1, c.1, r.2.1, r.2.2)

/-- Events contributed by one channel of the `update_dds` loop (the loop's
logs and events do not depend on the evolving attenuator state, only the
final attenuator state does). -/
def channel_events (clocking : ClockConfig) (p : ChannelConfig × Channel) :
    List UpdateEvent :=
  match Profile.tryFrom clocking p.1 with
  | Except.ok dds_profile =>
    UpdateEvent.ddsWrite p.2 dds_profile ::
      (if att_is_valid p.1.attenuation then
        [UpdateEvent.setAttenuation p.2
          ((f32_as_u8 (p.1.attenuation * 2) : ℚ) / 2)]
      else [])
  | Except.error _ => []

/-- Log entries contributed by one channel of the `update_dds` loop. -/
def channel_log (clocking : ClockConfig) (p : ChannelConfig × Channel) :
    List LogEntry :=
  match Profile.tryFrom clocking p.1 with
  | Except.ok _ =>
    if att_is_valid p.1.attenuation then []
    else [LogEntry.attenuationError Error.Bounds]
  | Except.error e => [LogEntry.profileError e]

/-- Attenuator state with all staging and output bytes zero, used for
concrete evaluations. -/
def attZero : AttState := ⟨fun _ => 0, fun _ => 0⟩

/-- The default Pounder clock configuration (100 MHz reference,
multiplier 5), used for concrete evaluations. -/
def cexClock : ClockConfig := ⟨5, 100000000, false⟩

/-- Pounder configuration in which exactly one channel (the first input
channel) has a failing profile computation (negative frequency), while a
sibling channel (the second input channel) has a valid profile but an
out-of-bounds attenuation of 100 dB. -/
def cexConfig : PounderConfig where
  clock := cexClock
  in_channel := ![⟨⟨-1, 0, 0⟩, 0⟩, ⟨⟨0, 0, 0⟩, 100⟩]
  out_channel := ![⟨⟨0, 0, 0⟩, 0⟩, ⟨⟨0, 0, 0⟩, 0⟩]

/-- Pounder configuration in which exactly one channel (the first input
channel) has a failing profile computation and every other channel is fully
valid. -/
def cexGoodConfig : PounderConfig where
  clock := cexClock
  in_channel := ![⟨⟨-1, 0, 0⟩, 0⟩, ⟨⟨0, 0, 0⟩, 0⟩]
  out_channel := ![⟨⟨0, 0, 0⟩, 0⟩, ⟨⟨0, 0, 0⟩, 0⟩]

/-- Decoder for the documented narrow-compatibility nibble encoding (spec
§4.3): bit `bit` of a raw byte is read back from encoded byte `3 - bit / 2`
of its 4-byte group, at bit offset 0 for even bits and 4 for odd bits (MSB
encoded first, least-significant bit pair in the most-significant encoded
byte). -/
def decodeByte (g : ℕ → ℕ) : ℕ :=
  (List.range 8).foldl
    (fun acc bit =>
      acc |||
        ((g (3 - bit / 2) >>> (if bit % 2 ≠ 0 then 4 else 0)) &&& 1) <<< bit)
    0

/-- Decode an emitted frame (the encoded address byte followed by the encoded
payload bytes) into raw bytes, one per 4-byte group. -/
def decodeFrame (enc : List ℕ) : List ℕ :=
  (List.range (enc.length / 4)).map
    (fun g => decodeByte (fun j => enc.getD (4 * g + j) 0))

/-- C7: each of the 16 `GpioPin` values maps to a distinct pin index in each
of the two expander chip families (both mappings are total bijections onto
the 16 addresses), and the four `Channel` values map to four pairwise
distinct attenuator-latch pins whose latch index equals the channel's numeric
shift-register index. -/
theorem gpio_mappings_bijective_and_latch_consistent :
    Function.Bijective GpioPin.toMcp23017 ∧
    Function.Bijective GpioPin.toTca9539 ∧
    Function.Injective Channel.toGpioPin ∧
    ∀ c : Channel, Channel.toGpioPin c = attLatchPin (Channel.index c) := by
  refine ⟨?_, ?_, ?_, ?_⟩ <;> decide

/-- C9: a DDS encoder read fails with `InvalidState` if and only if the
encoder is not in native four-bit mode; in four-bit mode the read issues
exactly one bus read whose transmitted address is the requested register
address with the high bit (`0x80`) set. -/
theorem qspi_read_invalid_state_iff (s : QspiState) (addr : ℕ) :
    (QspiInterface.read s addr = Except.error Error.InvalidState ↔
      s.mode ≠ Mode.FourBitSerial) ∧
    (s.mode = Mode.FourBitSerial →
      QspiInterface.read s addr = Except.ok [BusOp.read (0x80 ||| addr)]) := by
  by_cases h : s.mode = Mode.FourBitSerial <;>
    simp [QspiInterface.read, h]

/-- Witness for C9: in four-bit mode, reading register 5 issues one bus read
at address `0x85`. -/
theorem qspi_read_invalid_state_iff_witness :
    QspiInterface.read ⟨Mode.FourBitSerial, false⟩ 5 =
      Except.ok [BusOp.read 133] :=
  (qspi_read_invalid_state_iff ⟨Mode.FourBitSerial, false⟩ 5).2 rfl

/-- C3 counterexample: with the streaming flag set but the encoder still in
single-bit-two-wire mode, a write does not fail with `InvalidState` — it
succeeds and issues a bus transaction (the `SingleBitTwoWire` branch of
`QspiInterface::write` never checks `self.streaming`). -/
theorem qspi_write_streaming_counterexample :
    QspiInterface.write ⟨Mode.SingleBitTwoWire, true⟩ 0 [0] =
      Except.ok [BusOp.write 0 [0, 0, 0, 0, 0, 0, 0]] := by
  rfl

/-- C3 as amended: a write attempted while the streaming sub-mode is active
fails with `InvalidState` and issues no bus transaction, provided the encoder
is not in narrow-compatibility (single-bit-two-wire) mode, whose encoding
branch does not consult the streaming flag. -/
theorem qspi_write_streaming_invalid_state (s : QspiState) (addr : ℕ)
    (data : List ℕ) (hstream : s.streaming = true)
    (hmode : s.mode ≠ Mode.SingleBitTwoWire) :
    QspiInterface.write s addr data = Except.error Error.InvalidState := by
  obtain ⟨m, st⟩ := s
  cases m <;> simp_all [QspiInterface.write]

/-- Witness for C3 (amended): writing while streaming in four-bit mode fails
with `InvalidState`. -/
theorem qspi_write_streaming_invalid_state_witness :
    QspiInterface.write ⟨Mode.FourBitSerial, true⟩ 0 [0] =
      Except.error Error.InvalidState :=
  qspi_write_streaming_invalid_state ⟨Mode.FourBitSerial, true⟩ 0 [0] rfl
    (by decide)

/-- C6: in narrow-compatibility mode a write with a payload of at most 2
bytes is never rejected for size (it issues exactly one bus transaction),
and a payload of more than 2 bytes fails with `Bounds` and issues no bus
transaction. -/
theorem qspi_write_compat_bounds (s : QspiState) (addr : ℕ) (data : List ℕ)
    (hmode : s.mode = Mode.SingleBitTwoWire) :
    (data.length ≤ 2 →
      ∃ ea ep,
        QspiInterface.write s addr data = Except.ok [BusOp.write ea ep]) ∧
    (2 < data.length →
      QspiInterface.write s addr data = Except.error Error.Bounds) := by
  obtain ⟨m, st⟩ := s
  cases hmode
  constructor
  · intro h
    simp only [QspiInterface.write]
    rw [if_neg (by omega)]
    exact ⟨_, _, rfl⟩
  · intro h
    simp only [QspiInterface.write]
    rw [if_pos (by omega)]

/-- Witness for C6: a 1-byte payload encodes successfully, a 3-byte payload
is rejected with `Bounds`. -/
theorem qspi_write_compat_bounds_witness :
    (∃ ea ep,
      QspiInterface.write ⟨Mode.SingleBitTwoWire, false⟩ 0 [0] =
        Except.ok [BusOp.write ea ep]) ∧
    QspiInterface.write ⟨Mode.SingleBitTwoWire, false⟩ 0 [0, 0, 0] =
      Except.error Error.Bounds :=
  ⟨(qspi_write_compat_bounds ⟨Mode.SingleBitTwoWire, false⟩ 0 [0] rfl).1
      (by norm_num),
    (qspi_write_compat_bounds ⟨Mode.SingleBitTwoWire, false⟩ 0 [0, 0, 0]
        rfl).2 (by norm_num)⟩

/-- C8: for the input channels, `measure_power` returns
`normalized_reading × 2.048 × (1 / 0.0517) + (−58 + 20)`; a normalized
reading of 1.0 yields `2.048 / 0.0517 − 38` dBm (within 0.01 of +1.62 dBm);
for the output channels it fails with `InvalidChannel` regardless of the
converter readings. -/
theorem measure_power_formula (pwr0 pwr1 : ℚ) :
    measure_power pwr0 pwr1 Channel.In0 =
      Except.ok (pwr0 * 2.048 * (1 / 0.0517) + (-58 + 20)) ∧
    measure_power pwr0 pwr1 Channel.In1 =
      Except.ok (pwr1 * 2.048 * (1 / 0.0517) + (-58 + 20)) ∧
    measure_power 1 pwr1 Channel.In0 = Except.ok (2.048 / 0.0517 - 38) ∧
    |(2.048 / 0.0517 - 38 : ℚ) - 1.62| < 0.01 ∧
    measure_power pwr0 pwr1 Channel.Out0 =
      Except.error Error.InvalidChannel ∧
    measure_power pwr0 pwr1 Channel.Out1 =
      Except.error Error.InvalidChannel := by
  refine ⟨rfl, rfl, ?_, by norm_num [abs_lt], rfl, rfl⟩
  simp only [measure_power, sample_converter, Except.map]
  norm_num

/-- C5: a requested attenuation outside [0, 31.5] dB fails with `Bounds`
before any SPI transfer or latch pulse occurs (the event list is empty), and
no modified attenuator state is produced. -/
theorem set_attenuation_bounds (s : AttState) (c : Channel) (a : ℚ)
    (h : a < 0 ∨ 31.5 < a) :
    set_attenuation s c a = ([], Except.error Error.Bounds) := by
  have hv : att_is_valid a = false := by
    unfold att_is_valid
    rcases h with h | h <;> simp [not_le.mpr h]
  unfold set_attenuation
  rw [hv]
  rfl

/-- Witness for C5: requesting 32 dB is rejected with `Bounds` and no bus
event. -/
theorem set_attenuation_bounds_witness :
    set_attenuation ⟨fun _ => 0, fun _ => 0⟩ Channel.In0 32 =
      ([], Except.error Error.Bounds) :=
  set_attenuation_bounds ⟨fun _ => 0, fun _ => 0⟩ Channel.In0 32
    (Or.inr (by norm_num))

/-- C1: for every channel and every attenuation `a = k / 2` dB with
`k ≤ 63` (the half-dB grid 0.0, 0.5, …, 31.5), `set_attenuation` succeeds
returning exactly `a`, and a subsequent `get_attenuation` on the resulting
attenuator state returns exactly `a`, under the documented shift-register
model (each transfer shifts the buffer into the staging register and the
latched outputs out into the buffer; the read performs two consecutive
transfers with the same buffer). -/
theorem attenuation_round_trip (s : AttState) (c : Channel) (k : ℕ)
    (hk : k ≤ 63) :
    ∃ s₁,
      (set_attenuation s c ((k : ℚ) / 2)).2 =
        Except.ok (s₁, (k : ℚ) / 2) ∧
      ((get_attenuation s₁ c).2).2 = (k : ℚ) / 2 := by
  have hk' : (k : ℚ) ≤ 63 := by exact_mod_cast hk
  have hv : att_is_valid ((k : ℚ) / 2) = true := by
    unfold att_is_valid
    have h1 : (0 : ℚ) ≤ (k : ℚ) / 2 := by positivity
    have h2 : (k : ℚ) / 2 ≤ 31.5 := by
      rw [div_le_iff₀ (by norm_num : (0 : ℚ) < 2)]
      norm_num
      linarith
    simp [h1, h2]
  have hcode : f32_as_u8 ((k : ℚ) / 2 * 2) = k := by
    rw [div_mul_cancel₀ _ (two_ne_zero : (2 : ℚ) ≠ 0)]
    unfold f32_as_u8
    rw [if_neg (not_lt.mpr (Nat.cast_nonneg k)),
      if_neg (not_lt.mpr (le_trans hk' (by norm_num))),
      Int.floor_natCast]
    exact Int.toNat_natCast k
  have hshift : (k <<< 2) % 256 = 4 * k := by
    rw [Nat.shiftLeft_eq]
    omega
  refine ⟨⟨Function.update s.output c.index (255 - 4 * k),
      Function.update s.output c.index (255 - 4 * k)⟩, ?_, ?_⟩
  · simp only [set_attenuation, hv, Bool.not_true, Bool.false_eq_true,
      if_false, transfer_attenuators, latch_attenuator, hcode, hshift]
    simp [Function.update_same]
  · simp only [get_attenuation, transfer_attenuators, Function.update_same]
    rw [Nat.mod_eq_of_lt (by omega)]
    have h2 : 255 - (255 - 4 * k) = 4 * k := by omega
    rw [h2]
    have h3 : (4 * k) >>> 2 = k := by
      rw [Nat.shiftRight_eq_div_pow]
      omega
    rw [h3]

/-- Witness for C1: setting 10.5 dB (k = 21) on channel In0 from an all-zero
attenuator state and reading it back returns 10.5 dB. -/
theorem attenuation_round_trip_witness :
    ∃ s₁,
      (set_attenuation ⟨fun _ => 0, fun _ => 0⟩ Channel.In0
          (((21 : ℕ) : ℚ) / 2)).2 =
        Except.ok (s₁, ((21 : ℕ) : ℚ) / 2) ∧
      ((get_attenuation s₁ Channel.In0).2).2 = ((21 : ℕ) : ℚ) / 2 :=
  attenuation_round_trip ⟨fun _ => 0, fun _ => 0⟩ Channel.In0 21
    (by norm_num)

theorem and_mask_or {a b m : ℕ} (ha : a &&& m = 0) (hb : b &&& m = 0) :
    (a ||| b) &&& m = 0 := by
  apply Nat.eq_of_testBit_eq
  intro i
  have ha' := congrArg (fun n => n.testBit i) ha
  have hb' := congrArg (fun n => n.testBit i) hb
  simp only [Nat.testBit_and, Nat.testBit_or, Nat.zero_testBit] at *
  cases h1 : a.testBit i <;> cases h2 : b.testBit i <;> simp_all

theorem encStep_foldl_mask (x base : ℕ) (L : List ℕ) (enc : ℕ → ℕ)
    (h : ∀ i, enc i &&& 0xEE = 0) :
    ∀ i, (L.foldl (encStep x base) enc) i &&& 0xEE = 0 := by
  induction L generalizing enc with
  | nil => exact h
  | cons b t ih =>
    rw [List.foldl_cons]
    apply ih
    intro i
    simp only [encStep]
    split
    · by_cases hi : i = base + (3 - b / 2)
      · subst hi
        rw [Function.update_same]
        refine and_mask_or (h _) ?_
        by_cases hb : b % 2 ≠ 0
        · rw [if_pos hb]; decide
        · rw [if_neg hb]; decide
      · rw [Function.update_noteq hi]
        exact h i
    · exact h i

theorem encodeBits_mask (x base : ℕ) (enc : ℕ → ℕ)
    (h : ∀ i, enc i &&& 0xEE = 0) (i : ℕ) :
    encodeBits x base enc i &&& 0xEE = 0 :=
  encStep_foldl_mask x base (List.range 8) enc h i

theorem encode_single_bit_two_wire_mask (addr : ℕ) (data : List ℕ) :
    ∀ i, encode_single_bit_two_wire addr data i &&& 0xEE = 0 := by
  unfold encode_single_bit_two_wire
  have key : ∀ (L : List ℕ) (enc : ℕ → ℕ), (∀ i, enc i &&& 0xEE = 0) →
      ∀ i, (L.foldl (fun acc byte_index =>
        encodeBits (data.getD byte_index 0) ((byte_index + 1) * 4) acc)
          enc) i &&& 0xEE = 0 := by
    intro L
    induction L with
    | nil => intro enc h i; exact h i
    | cons b t ih =>
      intro enc h i
      rw [List.foldl_cons]
      exact ih _ (fun j => encodeBits_mask _ _ _ h j) i
  exact key (List.range data.length) _
    (fun i => encodeBits_mask _ _ _ (fun j => by decide) i)

/-- C10: in narrow-compatibility mode, every byte emitted on the bus (the
encoded address byte and every encoded payload byte) has all bits clear
except possibly bits 0 and 4 — data is placed only on the IO0 line of each
transmitted nibble, so IO3 (the DDS SYNC_IO line) is never driven high. -/
theorem qspi_write_compat_io0_only (s : QspiState) (addr : ℕ)
    (data : List ℕ) (hmode : s.mode = Mode.SingleBitTwoWire)
    (ea : ℕ) (ep : List ℕ)
    (h : QspiInterface.write s addr data = Except.ok [BusOp.write ea ep]) :
    ea &&& 0xEE = 0 ∧ ∀ b ∈ ep, b &&& 0xEE = 0 := by
  obtain ⟨m, st⟩ := s
  cases hmode
  simp only [QspiInterface.write] at h
  by_cases hlen : data.length * 4 > 12 - 4
  · rw [if_pos hlen] at h
    exact absurd h (by simp)
  · rw [if_neg hlen] at h
    cases h
    constructor
    · exact encode_single_bit_two_wire_mask addr data 0
    · intro b hb
      obtain ⟨j, -, rfl⟩ := List.mem_map.mp hb
      exact encode_single_bit_two_wire_mask addr data j

/-- Witness for C10: encoding address `0xFF` with payload `[0xAB]` emits only
bytes in {0, 1, 16, 17}. -/
theorem qspi_write_compat_io0_only_witness :
    17 &&& 0xEE = 0 ∧ ∀ b ∈ [17, 17, 17, 16, 16, 16, 17], b &&& 0xEE = 0 :=
  qspi_write_compat_io0_only ⟨Mode.SingleBitTwoWire, false⟩ 255 [171] rfl 17
    [17, 17, 17, 16, 16, 16, 17] (by rfl)

theorem encStep_foldl_untouched (x base : ℕ) (L : List ℕ) (enc : ℕ → ℕ)
    (i : ℕ) (h : i < base ∨ base + 3 < i) :
    (L.foldl (encStep x base) enc) i = enc i := by
  induction L generalizing enc with
  | nil => rfl
  | cons b t ih =>
    rw [List.foldl_cons, ih]
    simp only [encStep]
    split
    · rw [Function.update_noteq (by omega)]
    · rfl

theorem encodeBits_untouched (x base : ℕ) (enc : ℕ → ℕ) (i : ℕ)
    (h : i < base ∨ base + 3 < i) : encodeBits x base enc i = enc i :=
  encStep_foldl_untouched x base (List.range 8) enc i h

theorem encStep_foldl_congr (x base : ℕ) (L : List ℕ) (enc enc' : ℕ → ℕ)
    (h : ∀ m, base ≤ m → m ≤ base + 3 → enc m = enc' m) :
    ∀ i, base ≤ i → i ≤ base + 3 →
      (L.foldl (encStep x base) enc) i =
        (L.foldl (encStep x base) enc') i := by
  induction L generalizing enc enc' with
  | nil => exact h
  | cons b t ih =>
    rw [List.foldl_cons, List.foldl_cons]
    apply ih
    intro m hm1 hm2
    simp only [encStep]
    split
    · by_cases hm : m = base + (3 - b / 2)
      · subst hm
        rw [Function.update_same, Function.update_same,
          h _ (by omega) (by omega)]
      · rw [Function.update_noteq hm, Function.update_noteq hm]
        exact h m hm1 hm2
    · exact h m hm1 hm2

theorem encodeBits_congr (x base : ℕ) (enc enc' : ℕ → ℕ)
    (h : ∀ m, base ≤ m → m ≤ base + 3 → enc m = enc' m) (i : ℕ)
    (h1 : base ≤ i) (h2 : i ≤ base + 3) :
    encodeBits x base enc i = encodeBits x base enc' i :=
  encStep_foldl_congr x base (List.range 8) enc enc' h i h1 h2

theorem decodeByte_congr (g g' : ℕ → ℕ) (h : ∀ j, j < 4 → g j = g' j) :
    decodeByte g = decodeByte g' := by
  unfold decodeByte
  have key : ∀ (L : List ℕ) (a : ℕ),
      L.foldl (fun acc bit => acc ||| ((g (3 - bit / 2) >>>
        (if bit % 2 ≠ 0 then 4 else 0)) &&& 1) <<< bit) a =
      L.foldl (fun acc bit => acc ||| ((g' (3 - bit / 2) >>>
        (if bit % 2 ≠ 0 then 4 else 0)) &&& 1) <<< bit) a := by
    intro L
    induction L with
    | nil => intro a; rfl
    | cons b t ih =>
      intro a
      rw [List.foldl_cons, List.foldl_cons, h _ (by omega), ih]
  exact key (List.range 8) 0

set_option maxRecDepth 4000

theorem decode_encodeBits0 : ∀ x, x < 256 →
    decodeByte (fun j => encodeBits x 0 (fun _ => 0) j) = x := by
  decide

theorem decode_encodeBits4 : ∀ x, x < 256 →
    decodeByte (fun j => encodeBits x 4 (fun _ => 0) (4 + j)) = x := by
  decide

theorem decode_encodeBits8 : ∀ x, x < 256 →
    decodeByte (fun j => encodeBits x 8 (fun _ => 0) (8 + j)) = x := by
  decide

theorem decodeFrame_eight (a0 a1 a2 a3 b0 b1 b2 b3 : ℕ) :
    decodeFrame [a0, a1, a2, a3, b0, b1, b2, b3] =
      [decodeByte (fun j => [a0, a1, a2, a3].getD j 0),
        decodeByte (fun j => [b0, b1, b2, b3].getD j 0)] := by
  have h0 := decodeByte_congr
    (fun j => [a0, a1, a2, a3, b0, b1, b2, b3].getD (4 * 0 + j) 0)
    (fun j => [a0, a1, a2, a3].getD j 0)
    (fun j hj => by interval_cases j <;> rfl)
  have h1 := decodeByte_congr
    (fun j => [a0, a1, a2, a3, b0, b1, b2, b3].getD (4 * 1 + j) 0)
    (fun j => [b0, b1, b2, b3].getD j 0)
    (fun j hj => by interval_cases j <;> rfl)
  unfold decodeFrame
  rw [show ([a0, a1, a2, a3, b0, b1, b2, b3] : List ℕ).length / 4 = 2 by
    simp]
  show [decodeByte
      (fun j => [a0, a1, a2, a3, b0, b1, b2, b3].getD (4 * 0 + j) 0),
    decodeByte
      (fun j => [a0, a1, a2, a3, b0, b1, b2, b3].getD (4 * 1 + j) 0)] = _
  rw [h0, h1]

theorem decodeFrame_twelve (a0 a1 a2 a3 b0 b1 b2 b3 c0 c1 c2 c3 : ℕ) :
    decodeFrame [a0, a1, a2, a3, b0, b1, b2, b3, c0, c1, c2, c3] =
      [decodeByte (fun j => [a0, a1, a2, a3].getD j 0),
        decodeByte (fun j => [b0, b1, b2, b3].getD j 0),
        decodeByte (fun j => [c0, c1, c2, c3].getD j 0)] := by
  have h0 := decodeByte_congr
    (fun j =>
      [a0, a1, a2, a3, b0, b1, b2, b3, c0, c1, c2, c3].getD (4 * 0 + j) 0)
    (fun j => [a0, a1, a2, a3].getD j 0)
    (fun j hj => by interval_cases j <;> rfl)
  have h1 := decodeByte_congr
    (fun j =>
      [a0, a1, a2, a3, b0, b1, b2, b3, c0, c1, c2, c3].getD (4 * 1 + j) 0)
    (fun j => [b0, b1, b2, b3].getD j 0)
    (fun j hj => by interval_cases j <;> rfl)
  have h2 := decodeByte_congr
    (fun j =>
      [a0, a1, a2, a3, b0, b1, b2, b3, c0, c1, c2, c3].getD (4 * 2 + j) 0)
    (fun j => [c0, c1, c2, c3].getD j 0)
    (fun j hj => by interval_cases j <;> rfl)
  unfold decodeFrame
  rw [show ([a0, a1, a2, a3, b0, b1, b2, b3, c0, c1, c2, c3] :
      List ℕ).length / 4 = 3 by simp]
  show [decodeByte
      (fun j =>
        [a0, a1, a2, a3, b0, b1, b2, b3, c0, c1, c2, c3].getD (4 * 0 + j) 0),
    decodeByte
      (fun j =>
        [a0, a1, a2, a3, b0, b1, b2, b3, c0, c1, c2, c3].getD (4 * 1 + j) 0),
    decodeByte
      (fun j =>
        [a0, a1, a2, a3, b0, b1, b2, b3, c0, c1, c2, c3].getD
          (4 * 2 + j) 0)] = _
  rw [h0, h1, h2]

/-- C2: in narrow-compatibility mode, for every 8-bit address and every
payload of 1 or 2 bytes, the write succeeds with a single bus transaction,
and decoding the emitted nibble pattern (MSB first, least-significant bit
pair in the most-significant encoded byte of each group) recovers the
original address and payload exactly. -/
theorem qspi_write_compat_roundtrip (s : QspiState) (addr : ℕ)
    (data : List ℕ) (hmode : s.mode = Mode.SingleBitTwoWire)
    (haddr : addr < 256) (hlen : data.length = 1 ∨ data.length = 2)
    (hdata : ∀ b ∈ data, b < 256) :
    ∃ ea ep,
      QspiInterface.write s addr data = Except.ok [BusOp.write ea ep] ∧
      decodeFrame (ea :: ep) = addr :: data := by
  obtain ⟨m, st⟩ := s
  cases hmode
  rcases data with - | ⟨d0, - | ⟨d1, - | ⟨d2, t⟩⟩⟩
  · exact absurd hlen (by simp)
  · have hd0 : d0 < 256 := hdata d0 (by simp)
    have hA : ∀ j, j < 4 → encode_single_bit_two_wire addr [d0] j =
        encodeBits addr 0 (fun _ => 0) j := by
      intro j hj
      show encodeBits d0 4 (encodeBits addr 0 (fun _ => 0)) j = _
      exact encodeBits_untouched d0 4 _ j (by omega)
    have hB : ∀ j, j < 4 → encode_single_bit_two_wire addr [d0] (4 + j) =
        encodeBits d0 4 (fun _ => 0) (4 + j) := by
      intro j hj
      show encodeBits d0 4 (encodeBits addr 0 (fun _ => 0)) (4 + j) = _
      exact encodeBits_congr d0 4 _ _
        (fun m hm1 hm2 => encodeBits_untouched addr 0 _ m (by omega))
        (4 + j) (by omega) (by omega)
    simp only [QspiInterface.write]
    rw [if_neg (show ¬(([d0] : List ℕ).length * 4 > 12 - 4) by simp)]
    rw [show (1 + ([d0] : List ℕ).length) * 4 = 8 by simp]
    refine ⟨_, _, rfl, ?_⟩
    rw [show ((List.range 8).drop 1).map
        (encode_single_bit_two_wire addr [d0]) =
      [encode_single_bit_two_wire addr [d0] 1,
        encode_single_bit_two_wire addr [d0] 2,
        encode_single_bit_two_wire addr [d0] 3,
        encode_single_bit_two_wire addr [d0] 4,
        encode_single_bit_two_wire addr [d0] 5,
        encode_single_bit_two_wire addr [d0] 6,
        encode_single_bit_two_wire addr [d0] 7] from rfl]
    rw [decodeFrame_eight]
    have hg0 : decodeByte
        (fun j => [encode_single_bit_two_wire addr [d0] 0,
          encode_single_bit_two_wire addr [d0] 1,
          encode_single_bit_two_wire addr [d0] 2,
          encode_single_bit_two_wire addr [d0] 3].getD j 0) = addr := by
      rw [decodeByte_congr _ (fun j => encodeBits addr 0 (fun _ => 0) j)
        (fun j hj => by
          interval_cases j
          · exact hA 0 (by omega)
          · exact hA 1 (by omega)
          · exact hA 2 (by omega)
          · exact hA 3 (by omega))]
      exact decode_encodeBits0 addr haddr
    have hg1 : decodeByte
        (fun j => [encode_single_bit_two_wire addr [d0] 4,
          encode_single_bit_two_wire addr [d0] 5,
          encode_single_bit_two_wire addr [d0] 6,
          encode_single_bit_two_wire addr [d0] 7].getD j 0) = d0 := by
      rw [decodeByte_congr _
        (fun j => encodeBits d0 4 (fun _ => 0) (4 + j))
        (fun j hj => by
          interval_cases j
          · exact hB 0 (by omega)
          · exact hB 1 (by omega)
          · exact hB 2 (by omega)
          · exact hB 3 (by omega))]
      exact decode_encodeBits4 d0 hd0
    rw [hg0, hg1]
  · have hd0 : d0 < 256 := hdata d0 (by simp)
    have hd1 : d1 < 256 := hdata d1 (by simp)
    have hA : ∀ j, j < 4 →
        encode_single_bit_two_wire addr [d0, d1] j =
          encodeBits addr 0 (fun _ => 0) j := by
      intro j hj
      show encodeBits d1 8 (encodeBits d0 4
        (encodeBits addr 0 (fun _ => 0))) j = _
      rw [encodeBits_untouched d1 8 _ j (by omega)]
      exact encodeBits_untouched d0 4 _ j (by omega)
    have hB : ∀ j, j < 4 →
        encode_single_bit_two_wire addr [d0, d1] (4 + j) =
          encodeBits d0 4 (fun _ => 0) (4 + j) := by
      intro j hj
      show encodeBits d1 8 (encodeBits d0 4
        (encodeBits addr 0 (fun _ => 0))) (4 + j) = _
      rw [encodeBits_untouched d1 8 _ (4 + j) (by omega)]
      exact encodeBits_congr d0 4 _ _
        (fun m hm1 hm2 => encodeBits_untouched addr 0 _ m (by omega))
        (4 + j) (by omega) (by omega)
    have hC : ∀ j, j < 4 →
        encode_single_bit_two_wire addr [d0, d1] (8 + j) =
          encodeBits d1 8 (fun _ => 0) (8 + j) := by
      intro j hj
      show encodeBits d1 8 (encodeBits d0 4
        (encodeBits addr 0 (fun _ => 0))) (8 + j) = _
      refine encodeBits_congr d1 8 _ _ (fun m hm1 hm2 => ?_) (8 + j)
        (by omega) (by omega)
      rw [encodeBits_untouched d0 4 _ m (by omega)]
      exact encodeBits_untouched addr 0 _ m (by omega)
    simp only [QspiInterface.write]
    rw [if_neg (show ¬(([d0, d1] : List ℕ).length * 4 > 12 - 4) by simp)]
    rw [show (1 + ([d0, d1] : List ℕ).length) * 4 = 12 by simp]
    refine ⟨_, _, rfl, ?_⟩
    rw [show ((List.range 12).drop 1).map
        (encode_single_bit_two_wire addr [d0, d1]) =
      [encode_single_bit_two_wire addr [d0, d1] 1,
        encode_single_bit_two_wire addr [d0, d1] 2,
        encode_single_bit_two_wire addr [d0, d1] 3,
        encode_single_bit_two_wire addr [d0, d1] 4,
        encode_single_bit_two_wire addr [d0, d1] 5,
        encode_single_bit_two_wire addr [d0, d1] 6,
        encode_single_bit_two_wire addr [d0, d1] 7,
        encode_single_bit_two_wire addr [d0, d1] 8,
        encode_single_bit_two_wire addr [d0, d1] 9,
        encode_single_bit_two_wire addr [d0, d1] 10,
        encode_single_bit_two_wire addr [d0, d1] 11] from rfl]
    rw [decodeFrame_twelve]
    have hg0 : decodeByte
        (fun j => [encode_single_bit_two_wire addr [d0, d1] 0,
          encode_single_bit_two_wire addr [d0, d1] 1,
          encode_single_bit_two_wire addr [d0, d1] 2,
          encode_single_bit_two_wire addr [d0, d1] 3].getD j 0) = addr := by
      rw [decodeByte_congr _ (fun j => encodeBits addr 0 (fun _ => 0) j)
        (fun j hj => by
          interval_cases j
          · exact hA 0 (by omega)
          · exact hA 1 (by omega)
          · exact hA 2 (by omega)
          · exact hA 3 (by omega))]
      exact decode_encodeBits0 addr haddr
    have hg1 : decodeByte
        (fun j => [encode_single_bit_two_wire addr [d0, d1] 4,
          encode_single_bit_two_wire addr [d0, d1] 5,
          encode_single_bit_two_wire addr [d0, d1] 6,
          encode_single_bit_two_wire addr [d0, d1] 7].getD j 0) = d0 := by
      rw [decodeByte_congr _
        (fun j => encodeBits d0 4 (fun _ => 0) (4 + j))
        (fun j hj => by
          interval_cases j
          · exact hB 0 (by omega)
          · exact hB 1 (by omega)
          · exact hB 2 (by omega)
          · exact hB 3 (by omega))]
      exact decode_encodeBits4 d0 hd0
    have hg2 : decodeByte
        (fun j => [encode_single_bit_two_wire addr [d0, d1] 8,
          encode_single_bit_two_wire addr [d0, d1] 9,
          encode_single_bit_two_wire addr [d0, d1] 10,
          encode_single_bit_two_wire addr [d0, d1] 11].getD j 0) = d1 := by
      rw [decodeByte_congr _
        (fun j => encodeBits d1 8 (fun _ => 0) (8 + j))
        (fun j hj => by
          interval_cases j
          · exact hC 0 (by omega)
          · exact hC 1 (by omega)
          · exact hC 2 (by omega)
          · exact hC 3 (by omega))]
      exact decode_encodeBits8 d1 hd1
    rw [hg0, hg1, hg2]
  · rcases hlen with h | h <;> simp only [List.length_cons] at h <;> omega

/-- Witness for C2: encoding address `0x12` with payload `[0x34, 0xCD]`
succeeds and decodes back to address and payload. -/
theorem qspi_write_compat_roundtrip_witness :
    ∃ ea ep,
      QspiInterface.write ⟨Mode.SingleBitTwoWire, false⟩ 18 [52, 205] =
        Except.ok [BusOp.write ea ep] ∧
      decodeFrame (ea :: ep) = 18 :: [52, 205] :=
  qspi_write_compat_roundtrip ⟨Mode.SingleBitTwoWire, false⟩ 18 [52, 205]
    rfl (by norm_num) (Or.inr rfl) (by simp)

theorem set_attenuation_invalid (s : AttState) (c : Channel) (a : ℚ)
    (h : att_is_valid a = false) :
    (set_attenuation s c a).2 = Except.error Error.Bounds := by
  unfold set_attenuation
  rw [h]
  rfl

theorem set_attenuation_valid (s : AttState) (c : Channel) (a : ℚ)
    (h : att_is_valid a = true) :
    ∃ s', (set_attenuation s c a).2 =
      Except.ok (s', (f32_as_u8 (a * 2) : ℚ) / 2) := by
  unfold set_attenuation
  rw [h]
  exact ⟨_, rfl⟩

theorem update_dds_step_foldl (c1 : ClockConfig)
    (L : List (ChannelConfig × Channel)) :
    ∀ (att : AttState) (evs : List UpdateEvent) (logs : List LogEntry),
      (L.foldl (update_dds_step c1) (att, evs, logs)).2.1 =
        evs ++ (L.map (channel_events c1)).flatten ∧
      (L.foldl (update_dds_step c1) (att, evs, logs)).2.2 =
        logs ++ (L.map (channel_log c1)).flatten := by
  induction L with
  | nil => intro att evs logs; simp
  | cons p t ih =>
    intro att evs logs
    rw [List.foldl_cons]
    rcases hp : Profile.tryFrom c1 p.1 with e | prof
    · have hstep : update_dds_step c1 (att, evs, logs) p =
          (att, evs, logs ++ [LogEntry.profileError e]) := by
        simp only [update_dds_step, hp]
      rw [hstep]
      obtain ⟨h1, h2⟩ := ih att evs (logs ++ [LogEntry.profileError e])
      rw [h1, h2]
      simp [channel_events, channel_log, hp]
    · cases hv : att_is_valid p.1.attenuation with
      | true =>
        obtain ⟨s', hs⟩ := set_attenuation_valid att p.2 p.1.attenuation hv
        have hstep : update_dds_step c1 (att, evs, logs) p =
            (s', evs ++ [UpdateEvent.ddsWrite p.2 prof] ++
              [UpdateEvent.setAttenuation p.2
                ((f32_as_u8 (p.1.attenuation * 2) : ℚ) / 2)], logs) := by
          simp only [update_dds_step, hp, hs]
        rw [hstep]
        obtain ⟨h1, h2⟩ := ih s' _ logs
        rw [h1, h2]
        simp [channel_events, channel_log, hp, hv]
      | false =>
        have hs := set_attenuation_invalid att p.2 p.1.attenuation hv
        have hstep : update_dds_step c1 (att, evs, logs) p =
            (att, evs ++ [UpdateEvent.ddsWrite p.2 prof],
              logs ++ [LogEntry.attenuationError Error.Bounds]) := by
          simp only [update_dds_step, hp, hs]
        rw [hstep]
        obtain ⟨h1, h2⟩ := ih att _ _
        rw [h1, h2]
        simp [channel_events, channel_log, hp, hv]

/-- C4 (amended): whenever the requested clock configuration is unchanged or
validates successfully and the other three channels' attenuations are within
bounds, a `PounderConfig` in which exactly one channel's profile computation
fails still has `update_dds` apply the clock selection and the other three
channels' DDS profiles and attenuations, log exactly one error (for the
failing channel), and return normally. -/
theorem update_dds_one_bad_channel (att : AttState)
    (settings : PounderConfig) (clocking : ClockConfig)
    (hclk : settings.clock = clocking ∨
      ∃ f, validate_clocking settings.clock.reference_clock
        settings.clock.multiplier = Except.ok f)
    (j : Fin 4) (e : Ad9959Error)
    (hbad : Profile.tryFrom settings.clock (dds_channel_at settings j).1 =
      Except.error e)
    (hgood : ∀ i : Fin 4, i ≠ j →
      ∃ p, Profile.tryFrom settings.clock (dds_channel_at settings i).1 =
        Except.ok p)
    (hatt : ∀ i : Fin 4, i ≠ j →
      att_is_valid (dds_channel_at settings i).1.attenuation = true) :
    (update_dds att settings clocking).2.1 = settings.clock ∧
    (update_dds att settings clocking).2.2.2 = [LogEntry.profileError e] ∧
    (∀ i : Fin 4, i ≠ j → ∃ prof a,
      UpdateEvent.ddsWrite (dds_channel_at settings i).2 prof ∈
        (update_dds att settings clocking).2.2.1 ∧
      UpdateEvent.setAttenuation (dds_channel_at settings i).2 a ∈
        (update_dds att settings clocking).2.2.1) ∧
    (∀ prof, UpdateEvent.ddsWrite (dds_channel_at settings j).2 prof ∉
      (update_dds att settings clocking).2.2.1) ∧
    (∀ a, UpdateEvent.setAttenuation (dds_channel_at settings j).2 a ∉
      (update_dds att settings clocking).2.2.1) := by
  obtain ⟨evs0, hnw, hna, hcc⟩ :
      ∃ evs0 : List UpdateEvent,
        (∀ ch p, UpdateEvent.ddsWrite ch p ∉ evs0) ∧
        (∀ ch a, UpdateEvent.setAttenuation ch a ∉ evs0) ∧
        (if clocking ≠ settings.clock then
          match validate_clocking settings.clock.reference_clock
              settings.clock.multiplier with
          | Except.ok _frequency =>
            ((settings.clock,
              [UpdateEvent.setExtClk settings.clock.external_clock],
              ([] : List LogEntry)) :
              ClockConfig × List UpdateEvent × List LogEntry)
          | Except.error err => (clocking, [], [LogEntry.clockingError err])
        else (clocking, [], [])) = (settings.clock, evs0, []) := by
    by_cases hne : clocking ≠ settings.clock
    · rcases hclk with heq | ⟨f, hf⟩
      · exact absurd heq.symm hne
      · refine ⟨[UpdateEvent.setExtClk settings.clock.external_clock],
          by simp, by simp, ?_⟩
        rw [if_pos hne, hf]
    · refine ⟨[], by simp, by simp, ?_⟩
      rw [if_neg hne, not_not.mp hne]
  have hupdate : update_dds att settings clocking =
      (([(settings.in_channel 0, Channel.In0),
        (settings.in_channel 1, Channel.In1),
        (settings.out_channel 0, Channel.Out0),
        (settings.out_channel 1, Channel.Out1)].foldl (update_dds_step settings.clock)
          (att, evs0, [])).1, settings.clock,
        ([(settings.in_channel 0, Channel.In0),
        (settings.in_channel 1, Channel.In1),
        (settings.out_channel 0, Channel.Out0),
        (settings.out_channel 1, Channel.Out1)].foldl (update_dds_step settings.clock)
          (att, evs0, [])).2.1,
        ([(settings.in_channel 0, Channel.In0),
        (settings.in_channel 1, Channel.In1),
        (settings.out_channel 0, Channel.Out0),
        (settings.out_channel 1, Channel.Out1)].foldl (update_dds_step settings.clock)
          (att, evs0, [])).2.2) := by
    simp only [update_dds]
    rw [hcc]
    rfl
  obtain ⟨hev, hlog⟩ := update_dds_step_foldl settings.clock
    [(settings.in_channel 0, Channel.In0),
        (settings.in_channel 1, Channel.In1),
        (settings.out_channel 0, Channel.Out0),
        (settings.out_channel 1, Channel.Out1)] att evs0 []
  fin_cases j
  · have hbad' : Profile.tryFrom settings.clock (settings.in_channel 0) =
        Except.error e := hbad
    obtain ⟨p1, hp1'⟩ := hgood 1 (by decide)
    have hp1 : Profile.tryFrom settings.clock (settings.in_channel 1) =
        Except.ok p1 := hp1'
    have ha1 : att_is_valid (settings.in_channel 1).attenuation = true :=
      hatt 1 (by decide)
    obtain ⟨p2, hp2'⟩ := hgood 2 (by decide)
    have hp2 : Profile.tryFrom settings.clock (settings.out_channel 0) =
        Except.ok p2 := hp2'
    have ha2 : att_is_valid (settings.out_channel 0).attenuation = true :=
      hatt 2 (by decide)
    obtain ⟨p3, hp3'⟩ := hgood 3 (by decide)
    have hp3 : Profile.tryFrom settings.clock (settings.out_channel 1) =
        Except.ok p3 := hp3'
    have ha3 : att_is_valid (settings.out_channel 1).attenuation = true :=
      hatt 3 (by decide)
    have hE0 : channel_events settings.clock
        ((settings.in_channel 0), Channel.In0) = [] := by
      simp [channel_events, hbad']
    have hL0 : channel_log settings.clock
        ((settings.in_channel 0), Channel.In0) = [LogEntry.profileError e] := by
      simp [channel_log, hbad']
    have hE1 : channel_events settings.clock
        ((settings.in_channel 1), Channel.In1) =
        [UpdateEvent.ddsWrite Channel.In1 p1,
          UpdateEvent.setAttenuation Channel.In1
            ((f32_as_u8 ((settings.in_channel 1).attenuation * 2) : ℚ) / 2)] := by
      simp [channel_events, hp1, ha1]
    have hL1 : channel_log settings.clock
        ((settings.in_channel 1), Channel.In1) = [] := by
      simp [channel_log, hp1, ha1]
    have hE2 : channel_events settings.clock
        ((settings.out_channel 0), Channel.Out0) =
        [UpdateEvent.ddsWrite Channel.Out0 p2,
          UpdateEvent.setAttenuation Channel.Out0
            ((f32_as_u8 ((settings.out_channel 0).attenuation * 2) : ℚ) / 2)] := by
      simp [channel_events, hp2, ha2]
    have hL2 : channel_log settings.clock
        ((settings.out_channel 0), Channel.Out0) = [] := by
      simp [channel_log, hp2, ha2]
    have hE3 : channel_events settings.clock
        ((settings.out_channel 1), Channel.Out1) =
        [UpdateEvent.ddsWrite Channel.Out1 p3,
          UpdateEvent.setAttenuation Channel.Out1
            ((f32_as_u8 ((settings.out_channel 1).attenuation * 2) : ℚ) / 2)] := by
      simp [channel_events, hp3, ha3]
    have hL3 : channel_log settings.clock
        ((settings.out_channel 1), Channel.Out1) = [] := by
      simp [channel_log, hp3, ha3]
    simp only [List.map_cons, List.map_nil, List.flatten_cons,
      List.flatten_nil] at hev hlog
    rw [hE0, hE1, hE2, hE3] at hev
    rw [hL0, hL1, hL2, hL3] at hlog
    rw [hupdate, hev, hlog]
    refine ⟨rfl, ?_, ?_, ?_, ?_⟩
    · simp
    · intro i hi
      fin_cases i
      · exact absurd rfl hi
      · exact ⟨p1, (f32_as_u8 ((settings.in_channel 1).attenuation * 2) : ℚ) / 2,
          by simp [dds_channel_at], by simp [dds_channel_at]⟩
      · exact ⟨p2, (f32_as_u8 ((settings.out_channel 0).attenuation * 2) : ℚ) / 2,
          by simp [dds_channel_at], by simp [dds_channel_at]⟩
      · exact ⟨p3, (f32_as_u8 ((settings.out_channel 1).attenuation * 2) : ℚ) / 2,
          by simp [dds_channel_at], by simp [dds_channel_at]⟩
    · intro prof
      simp [dds_channel_at, hnw]
    · intro a
      simp [dds_channel_at, hna]
  · have hbad' : Profile.tryFrom settings.clock (settings.in_channel 1) =
        Except.error e := hbad
    obtain ⟨p0, hp0'⟩ := hgood 0 (by decide)
    have hp0 : Profile.tryFrom settings.clock (settings.in_channel 0) =
        Except.ok p0 := hp0'
    have ha0 : att_is_valid (settings.in_channel 0).attenuation = true :=
      hatt 0 (by decide)
    obtain ⟨p2, hp2'⟩ := hgood 2 (by decide)
    have hp2 : Profile.tryFrom settings.clock (settings.out_channel 0) =
        Except.ok p2 := hp2'
    have ha2 : att_is_valid (settings.out_channel 0).attenuation = true :=
      hatt 2 (by decide)
    obtain ⟨p3, hp3'⟩ := hgood 3 (by decide)
    have hp3 : Profile.tryFrom settings.clock (settings.out_channel 1) =
        Except.ok p3 := hp3'
    have ha3 : att_is_valid (settings.out_channel 1).attenuation = true :=
      hatt 3 (by decide)
    have hE0 : channel_events settings.clock
        ((settings.in_channel 0), Channel.In0) =
        [UpdateEvent.ddsWrite Channel.In0 p0,
          UpdateEvent.setAttenuation Channel.In0
            ((f32_as_u8 ((settings.in_channel 0).attenuation * 2) : ℚ) / 2)] := by
      simp [channel_events, hp0, ha0]
    have hL0 : channel_log settings.clock
        ((settings.in_channel 0), Channel.In0) = [] := by
      simp [channel_log, hp0, ha0]
    have hE1 : channel_events settings.clock
        ((settings.in_channel 1), Channel.In1) = [] := by
      simp [channel_events, hbad']
    have hL1 : channel_log settings.clock
        ((settings.in_channel 1), Channel.In1) = [LogEntry.profileError e] := by
      simp [channel_log, hbad']
    have hE2 : channel_events settings.clock
        ((settings.out_channel 0), Channel.Out0) =
        [UpdateEvent.ddsWrite Channel.Out0 p2,
          UpdateEvent.setAttenuation Channel.Out0
            ((f32_as_u8 ((settings.out_channel 0).attenuation * 2) : ℚ) / 2)] := by
      simp [channel_events, hp2, ha2]
    have hL2 : channel_log settings.clock
        ((settings.out_channel 0), Channel.Out0) = [] := by
      simp [channel_log, hp2, ha2]
    have hE3 : channel_events settings.clock
        ((settings.out_channel 1), Channel.Out1) =
        [UpdateEvent.ddsWrite Channel.Out1 p3,
          UpdateEvent.setAttenuation Channel.Out1
            ((f32_as_u8 ((settings.out_channel 1).attenuation * 2) : ℚ) / 2)] := by
      simp [channel_events, hp3, ha3]
    have hL3 : channel_log settings.clock
        ((settings.out_channel 1), Channel.Out1) = [] := by
      simp [channel_log, hp3, ha3]
    simp only [List.map_cons, List.map_nil, List.flatten_cons,
      List.flatten_nil] at hev hlog
    rw [hE0, hE1, hE2, hE3] at hev
    rw [hL0, hL1, hL2, hL3] at hlog
    rw [hupdate, hev, hlog]
    refine ⟨rfl, ?_, ?_, ?_, ?_⟩
    · simp
    · intro i hi
      fin_cases i
      · exact ⟨p0, (f32_as_u8 ((settings.in_channel 0).attenuation * 2) : ℚ) / 2,
          by simp [dds_channel_at], by simp [dds_channel_at]⟩
      · exact absurd rfl hi
      · exact ⟨p2, (f32_as_u8 ((settings.out_channel 0).attenuation * 2) : ℚ) / 2,
          by simp [dds_channel_at], by simp [dds_channel_at]⟩
      · exact ⟨p3, (f32_as_u8 ((settings.out_channel 1).attenuation * 2) : ℚ) / 2,
          by simp [dds_channel_at], by simp [dds_channel_at]⟩
    · intro prof
      simp [dds_channel_at, hnw]
    · intro a
      simp [dds_channel_at, hna]
  · have hbad' : Profile.tryFrom settings.clock (settings.out_channel 0) =
        Except.error e := hbad
    obtain ⟨p0, hp0'⟩ := hgood 0 (by decide)
    have hp0 : Profile.tryFrom settings.clock (settings.in_channel 0) =
        Except.ok p0 := hp0'
    have ha0 : att_is_valid (settings.in_channel 0).attenuation = true :=
      hatt 0 (by decide)
    obtain ⟨p1, hp1'⟩ := hgood 1 (by decide)
    have hp1 : Profile.tryFrom settings.clock (settings.in_channel 1) =
        Except.ok p1 := hp1'
    have ha1 : att_is_valid (settings.in_channel 1).attenuation = true :=
      hatt 1 (by decide)
    obtain ⟨p3, hp3'⟩ := hgood 3 (by decide)
    have hp3 : Profile.tryFrom settings.clock (settings.out_channel 1) =
        Except.ok p3 := hp3'
    have ha3 : att_is_valid (settings.out_channel 1).attenuation = true :=
      hatt 3 (by decide)
    have hE0 : channel_events settings.clock
        ((settings.in_channel 0), Channel.In0) =
        [UpdateEvent.ddsWrite Channel.In0 p0,
          UpdateEvent.setAttenuation Channel.In0
            ((f32_as_u8 ((settings.in_channel 0).attenuation * 2) : ℚ) / 2)] := by
      simp [channel_events, hp0, ha0]
    have hL0 : channel_log settings.clock
        ((settings.in_channel 0), Channel.In0) = [] := by
      simp [channel_log, hp0, ha0]
    have hE1 : channel_events settings.clock
        ((settings.in_channel 1), Channel.In1) =
        [UpdateEvent.ddsWrite Channel.In1 p1,
          UpdateEvent.setAttenuation Channel.In1
            ((f32_as_u8 ((settings.in_channel 1).attenuation * 2) : ℚ) / 2)] := by
      simp [channel_events, hp1, ha1]
    have hL1 : channel_log settings.clock
        ((settings.in_channel 1), Channel.In1) = [] := by
      simp [channel_log, hp1, ha1]
    have hE2 : channel_events settings.clock
        ((settings.out_channel 0), Channel.Out0) = [] := by
      simp [channel_events, hbad']
    have hL2 : channel_log settings.clock
        ((settings.out_channel 0), Channel.Out0) = [LogEntry.profileError e] := by
      simp [channel_log, hbad']
    have hE3 : channel_events settings.clock
        ((settings.out_channel 1), Channel.Out1) =
        [UpdateEvent.ddsWrite Channel.Out1 p3,
          UpdateEvent.setAttenuation Channel.Out1
            ((f32_as_u8 ((settings.out_channel 1).attenuation * 2) : ℚ) / 2)] := by
      simp [channel_events, hp3, ha3]
    have hL3 : channel_log settings.clock
        ((settings.out_channel 1), Channel.Out1) = [] := by
      simp [channel_log, hp3, ha3]
    simp only [List.map_cons, List.map_nil, List.flatten_cons,
      List.flatten_nil] at hev hlog
    rw [hE0, hE1, hE2, hE3] at hev
    rw [hL0, hL1, hL2, hL3] at hlog
    rw [hupdate, hev, hlog]
    refine ⟨rfl, ?_, ?_, ?_, ?_⟩
    · simp
    · intro i hi
      fin_cases i
      · exact ⟨p0, (f32_as_u8 ((settings.in_channel 0).attenuation * 2) : ℚ) / 2,
          by simp [dds_channel_at], by simp [dds_channel_at]⟩
      · exact ⟨p1, (f32_as_u8 ((settings.in_channel 1).attenuation * 2) : ℚ) / 2,
          by simp [dds_channel_at], by simp [dds_channel_at]⟩
      · exact absurd rfl hi
      · exact ⟨p3, (f32_as_u8 ((settings.out_channel 1).attenuation * 2) : ℚ) / 2,
          by simp [dds_channel_at], by simp [dds_channel_at]⟩
    · intro prof
      simp [dds_channel_at, hnw]
    · intro a
      simp [dds_channel_at, hna]
  · have hbad' : Profile.tryFrom settings.clock (settings.out_channel 1) =
        Except.error e := hbad
    obtain ⟨p0, hp0'⟩ := hgood 0 (by decide)
    have hp0 : Profile.tryFrom settings.clock (settings.in_channel 0) =
        Except.ok p0 := hp0'
    have ha0 : att_is_valid (settings.in_channel 0).attenuation = true :=
      hatt 0 (by decide)
    obtain ⟨p1, hp1'⟩ := hgood 1 (by decide)
    have hp1 : Profile.tryFrom settings.clock (settings.in_channel 1) =
        Except.ok p1 := hp1'
    have ha1 : att_is_valid (settings.in_channel 1).attenuation = true :=
      hatt 1 (by decide)
    obtain ⟨p2, hp2'⟩ := hgood 2 (by decide)
    have hp2 : Profile.tryFrom settings.clock (settings.out_channel 0) =
        Except.ok p2 := hp2'
    have ha2 : att_is_valid (settings.out_channel 0).attenuation = true :=
      hatt 2 (by decide)
    have hE0 : channel_events settings.clock
        ((settings.in_channel 0), Channel.In0) =
        [UpdateEvent.ddsWrite Channel.In0 p0,
          UpdateEvent.setAttenuation Channel.In0
            ((f32_as_u8 ((settings.in_channel 0).attenuation * 2) : ℚ) / 2)] := by
      simp [channel_events, hp0, ha0]
    have hL0 : channel_log settings.clock
        ((settings.in_channel 0), Channel.In0) = [] := by
      simp [channel_log, hp0, ha0]
    have hE1 : channel_events settings.clock
        ((settings.in_channel 1), Channel.In1) =
        [UpdateEvent.ddsWrite Channel.In1 p1,
          UpdateEvent.setAttenuation Channel.In1
            ((f32_as_u8 ((settings.in_channel 1).attenuation * 2) : ℚ) / 2)] := by
      simp [channel_events, hp1, ha1]
    have hL1 : channel_log settings.clock
        ((settings.in_channel 1), Channel.In1) = [] := by
      simp [channel_log, hp1, ha1]
    have hE2 : channel_events settings.clock
        ((settings.out_channel 0), Channel.Out0) =
        [UpdateEvent.ddsWrite Channel.Out0 p2,
          UpdateEvent.setAttenuation Channel.Out0
            ((f32_as_u8 ((settings.out_channel 0).attenuation * 2) : ℚ) / 2)] := by
      simp [channel_events, hp2, ha2]
    have hL2 : channel_log settings.clock
        ((settings.out_channel 0), Channel.Out0) = [] := by
      simp [channel_log, hp2, ha2]
    have hE3 : channel_events settings.clock
        ((settings.out_channel 1), Channel.Out1) = [] := by
      simp [channel_events, hbad']
    have hL3 : channel_log settings.clock
        ((settings.out_channel 1), Channel.Out1) = [LogEntry.profileError e] := by
      simp [channel_log, hbad']
    simp only [List.map_cons, List.map_nil, List.flatten_cons,
      List.flatten_nil] at hev hlog
    rw [hE0, hE1, hE2, hE3] at hev
    rw [hL0, hL1, hL2, hL3] at hlog
    rw [hupdate, hev, hlog]
    refine ⟨rfl, ?_, ?_, ?_, ?_⟩
    · simp
    · intro i hi
      fin_cases i
      · exact ⟨p0, (f32_as_u8 ((settings.in_channel 0).attenuation * 2) : ℚ) / 2,
          by simp [dds_channel_at], by simp [dds_channel_at]⟩
      · exact ⟨p1, (f32_as_u8 ((settings.in_channel 1).attenuation * 2) : ℚ) / 2,
          by simp [dds_channel_at], by simp [dds_channel_at]⟩
      · exact ⟨p2, (f32_as_u8 ((settings.out_channel 0).attenuation * 2) : ℚ) / 2,
          by simp [dds_channel_at], by simp [dds_channel_at]⟩
      · exact absurd rfl hi
    · intro prof
      simp [dds_channel_at, hnw]
    · intro a
      simp [dds_channel_at, hna]

theorem tryFrom_zero (clocking : ClockConfig) (a : ℚ)
    (h : 0 ≤ clocking.reference_clock * clocking.multiplier) :
    Profile.tryFrom clocking ⟨⟨0, 0, 0⟩, a⟩ = Except.ok ⟨0, 0, 0⟩ := by
  have h2 : (0 : ℚ) ≤ clocking.reference_clock * clocking.multiplier / 2 :=
    div_nonneg h (by norm_num)
  simp [Profile.tryFrom, frequency_to_ftw, phase_to_pow, amplitude_to_acr,
    h2]
  rfl

theorem att_is_valid_zero : att_is_valid 0 = true := by
  norm_num [att_is_valid]

theorem att_is_valid_hundred : att_is_valid 100 = false := by
  norm_num [att_is_valid]

/-- C4 counterexample: in `cexConfig` exactly one channel's profile
computation fails (the first input channel, negative frequency), yet
`update_dds` logs two errors rather than exactly one — the second input
channel's out-of-bounds attenuation also fails, so its attenuation is not
applied either. -/
theorem update_dds_one_bad_channel_counterexample :
    Profile.tryFrom cexConfig.clock (dds_channel_at cexConfig 0).1 =
      Except.error Ad9959Error.frequencyOutOfRange ∧
    (∀ i : Fin 4, i ≠ 0 →
      Profile.tryFrom cexConfig.clock (dds_channel_at cexConfig i).1 =
        Except.ok ⟨0, 0, 0⟩) ∧
    (update_dds attZero cexConfig cexConfig.clock).2.2.2 =
      [LogEntry.profileError Ad9959Error.frequencyOutOfRange,
        LogEntry.attenuationError Error.Bounds] := by
  have hsys : (0 : ℚ) ≤ cexClock.reference_clock * cexClock.multiplier := by
    norm_num [cexClock]
  have htf1 : Profile.tryFrom cexClock (cexConfig.in_channel 1) =
      Except.ok ⟨0, 0, 0⟩ := tryFrom_zero cexClock 100 hsys
  have htf2 : Profile.tryFrom cexClock (cexConfig.out_channel 0) =
      Except.ok ⟨0, 0, 0⟩ := tryFrom_zero cexClock 0 hsys
  have htf3 : Profile.tryFrom cexClock (cexConfig.out_channel 1) =
      Except.ok ⟨0, 0, 0⟩ := tryFrom_zero cexClock 0 hsys
  have htf0 : Profile.tryFrom cexClock (cexConfig.in_channel 0) =
      Except.error Ad9959Error.frequencyOutOfRange := rfl
  refine ⟨htf0, ?_, ?_⟩
  · intro i hi
    fin_cases i
    · exact absurd rfl hi
    · exact htf1
    · exact htf2
    · exact htf3
  · have hupdate : update_dds attZero cexConfig cexConfig.clock =
        (((dds_channels cexConfig).foldl (update_dds_step cexClock)
            (attZero, [], [])).1, cexClock,
          ((dds_channels cexConfig).foldl (update_dds_step cexClock)
            (attZero, [], [])).2.1,
          ((dds_channels cexConfig).foldl (update_dds_step cexClock)
            (attZero, [], [])).2.2) := by
      simp only [update_dds]
      rw [if_neg (show ¬(cexConfig.clock ≠ cexConfig.clock) from
        fun h => h rfl)]
      rfl
    obtain ⟨-, hlog⟩ := update_dds_step_foldl cexClock
      (dds_channels cexConfig) attZero [] []
    have hL0 : channel_log cexClock (cexConfig.in_channel 0, Channel.In0) =
        [LogEntry.profileError Ad9959Error.frequencyOutOfRange] := by
      simp [channel_log, htf0]
    have hL1 : channel_log cexClock (cexConfig.in_channel 1, Channel.In1) =
        [LogEntry.attenuationError Error.Bounds] := by
      have hatt100 : (cexConfig.in_channel 1).attenuation = 100 := rfl
      simp [channel_log, htf1, hatt100, att_is_valid_hundred]
    have hL2 : channel_log cexClock (cexConfig.out_channel 0, Channel.Out0) =
        [] := by
      have hatt0 : (cexConfig.out_channel 0).attenuation = 0 := rfl
      simp [channel_log, htf2, hatt0, att_is_valid_zero]
    have hL3 : channel_log cexClock (cexConfig.out_channel 1, Channel.Out1) =
        [] := by
      have hatt0 : (cexConfig.out_channel 1).attenuation = 0 := rfl
      simp [channel_log, htf3, hatt0, att_is_valid_zero]
    rw [hupdate]
    rw [show dds_channels cexConfig = [(cexConfig.in_channel 0, Channel.In0),
      (cexConfig.in_channel 1, Channel.In1),
      (cexConfig.out_channel 0, Channel.Out0),
      (cexConfig.out_channel 1, Channel.Out1)] from rfl] at hlog
    simp only [List.map_cons, List.map_nil, List.flatten_cons,
      List.flatten_nil, hL0, hL1, hL2, hL3] at hlog
    rw [show ((dds_channels cexConfig).foldl (update_dds_step cexClock)
        (attZero, [], [])).2.2 =
      ([(cexConfig.in_channel 0, Channel.In0),
        (cexConfig.in_channel 1, Channel.In1),
        (cexConfig.out_channel 0, Channel.Out0),
        (cexConfig.out_channel 1, Channel.Out1)].foldl
          (update_dds_step cexClock) (attZero, [], [])).2.2 from rfl]
    rw [hlog]
    simp

/-- Witness for C4 (amended): with `cexGoodConfig`, whose first input channel
has an invalid frequency and whose other channels are fully valid, and an
unchanged clock, `update_dds` keeps the clock, logs exactly the one profile
error, applies the other three channels, and does not touch the failing
channel. -/
theorem update_dds_one_bad_channel_witness :
    (update_dds attZero cexGoodConfig cexClock).2.1 = cexGoodConfig.clock ∧
    (update_dds attZero cexGoodConfig cexClock).2.2.2 =
      [LogEntry.profileError Ad9959Error.frequencyOutOfRange] ∧
    (∀ i : Fin 4, i ≠ 0 → ∃ prof a,
      UpdateEvent.ddsWrite (dds_channel_at cexGoodConfig i).2 prof ∈
        (update_dds attZero cexGoodConfig cexClock).2.2.1 ∧
      UpdateEvent.setAttenuation (dds_channel_at cexGoodConfig i).2 a ∈
        (update_dds attZero cexGoodConfig cexClock).2.2.1) ∧
    (∀ prof,
      UpdateEvent.ddsWrite (dds_channel_at cexGoodConfig 0).2 prof ∉
        (update_dds attZero cexGoodConfig cexClock).2.2.1) ∧
    (∀ a,
      UpdateEvent.setAttenuation (dds_channel_at cexGoodConfig 0).2 a ∉
        (update_dds attZero cexGoodConfig cexClock).2.2.1) := by
  have hsys : (0 : ℚ) ≤ cexClock.reference_clock * cexClock.multiplier := by
    norm_num [cexClock]
  have htfz : Profile.tryFrom cexClock
      (⟨⟨0, 0, 0⟩, 0⟩ : ChannelConfig) = Except.ok ⟨0, 0, 0⟩ :=
    tryFrom_zero cexClock 0 hsys
  exact update_dds_one_bad_channel attZero cexGoodConfig cexClock
    (Or.inl rfl) 0 Ad9959Error.frequencyOutOfRange rfl
    (fun i hi => by
      fin_cases i
      · exact absurd rfl hi
      · exact ⟨⟨0, 0, 0⟩, htfz⟩
      · exact ⟨⟨0, 0, 0⟩, htfz⟩
      · exact ⟨⟨0, 0, 0⟩, htfz⟩)
    (fun i hi => by
      fin_cases i
      · exact absurd rfl hi
      · exact att_is_valid_zero
      · exact att_is_valid_zero
      · exact att_is_valid_zero)

end Pounder
